import Mathlib

/-!
Verification of the Identity Prism scoring and deterministic scene-generation
engines, shallowly embedded from the TypeScript sources.

JavaScript numbers are modelled by `ℚ` (exact arithmetic; the code's values
stay far below 2^53 everywhere a claim depends on the exact value), JS bitwise
operations by explicit two's-complement arithmetic on `ℤ`, and the mutable
seeded generator by explicit state passing.

The repository ships two coherent snapshots of the app:
* the "main" snapshot: `src/constants.ts`, `calculateScore` /
  `determineRarityTier` in `src/hooks/useWalletData.ts` (first version) and
  `src/lib/solarSystemGenerator.ts`;
* the "supernova" snapshot: the second `calculateScore` in
  `src/hooks/useWalletData.ts`, the constants file holding
  `DIAMOND_HANDS_BONUS` and the four-entry `PLANET_TYPES`, and the generator +
  texture synthesizer file (`generateSolarSystem`, `simplexNoise`, `fbm`).
The main snapshot's scoring engine lives at top level (constants under
`Scoring` / `RarityThresholds`), the supernova snapshot under
`ScoringSupernova` / `Supernova`, and the main generator's planet count under
`MainGen`.
-/

/-- JS `Math.round` on a non-special number: round half toward +∞. -/
def jsRound (q : ℚ) : ℤ := ⌊q + 1/2⌋

/-- Truncation toward zero, as used by the JS `%` remainder operator. -/
def jsTrunc (q : ℚ) : ℤ := if 0 ≤ q then ⌊q⌋ else ⌈q⌉

/-- The JS `%` remainder: same sign as the dividend. -/
def jsMod (a b : ℚ) : ℚ := a - b * jsTrunc (a / b)

/-- ToInt32: wrap an integer into the signed 32-bit range, as JS bitwise
operators do with their operands and results. -/
def toInt32 (z : ℤ) : ℤ := (z + 2 ^ 31) % 2 ^ 32 - 2 ^ 31

/-- JS `&` on 32-bit values: bitwise and of the two's-complement images. -/
def jsAnd32 (a b : ℤ) : ℤ := toInt32 (Nat.land ((a % 2 ^ 32).toNat) ((b % 2 ^ 32).toNat))

/-- JS `^` on 32-bit values: bitwise xor of the two's-complement images. -/
def jsXor32 (a b : ℤ) : ℤ := toInt32 (Nat.xor ((a % 2 ^ 32).toNat) ((b % 2 ^ 32).toNat))

/-- JS `>>` (sign-propagating right shift) on a 32-bit value. -/
def jsShr32 (a : ℤ) (k : ℕ) : ℤ := Int.fdiv (toInt32 a) (2 ^ k)

/-- The exact value of the float64 constant `Math.PI`. -/
def jsPI : ℚ := 884279719003555 / 281474976710656

/-- The helper `clamp(value, min, max) = Math.min(Math.max(value, min), max)` from the
generator files, over any linear order. -/
def clamp {α : Type} [LinearOrder α] (value lo hi : α) : α := min (max value lo) hi

/-- The five-level rarity enum `RarityTier`. -/
inductive RarityTier where
  | common
  | rare
  | epic
  | legendary
  | mythic
deriving DecidableEq

/-- Position of a tier in the enum's declared order
common < rare < epic < legendary < mythic. -/
def RarityTier.ord : RarityTier → ℕ
  | .common => 0
  | .rare => 1
  | .epic => 2
  | .legendary => 3
  | .mythic => 4

namespace Scoring

/-! The `SCORING` table of `src/constants.ts` (Identity Prism 3.0). -/

def SEEKER_GENESIS_BONUS : ℚ := 200
def CHAPTER2_PREORDER_BONUS : ℚ := 150
def COMBO_BONUS : ℚ := 200
def BLUE_CHIP_BONUS : ℚ := 100
def MEME_LORD_BONUS : ℚ := 70
def DEFI_KING_BONUS : ℚ := 70
def WALLET_AGE_PER_YEAR : ℚ := 100
def WALLET_AGE_MAX : ℚ := 300
def TX_COUNT_MULTIPLIER : ℚ := 1/2
def TX_COUNT_CAP : ℚ := 200
def MAX_SCORE : ℤ := 1200

end Scoring

namespace RarityThresholds

/-! The `RARITY_THRESHOLDS` table of `src/constants.ts`. -/

def COMMON : ℚ := 0
def RARE : ℚ := 201
def EPIC : ℚ := 451
def LEGENDARY : ℚ := 651
def MYTHIC : ℚ := 851

end RarityThresholds

/-- The `WalletTraits` attribute record. Fields that none of the embedded
functions read (`memeCoinsHeld`, `avgTxPerDay30d`, `daysSinceLastTx`,
`solTier`, `totalAssetsCount`) are omitted; the field set is the union of the
two snapshots' interfaces (`walletAgeYears`/`walletAgeBonus` from the first,
`walletAgeDays` from the second). -/
structure WalletTraits where
  hasSeeker : Bool
  hasPreorder : Bool
  hasCombo : Bool
  isBlueChip : Bool
  isDeFiKing : Bool
  isMemeLord : Bool
  hyperactiveDegen : Bool
  diamondHands : Bool
  uniqueTokenCount : ℚ
  nftCount : ℚ
  txCount : ℚ
  solBalance : ℚ
  solBonusApplied : ℚ
  walletAgeYears : ℚ
  walletAgeDays : ℚ
  walletAgeBonus : ℚ
  rarityTier : RarityTier
deriving DecidableEq

/-- The pre-cap sum accumulated in `calculateScore`
(`src/hooks/useWalletData.ts`, first version, lines 45-62). -/
def rawScore (t : WalletTraits) : ℚ :=
  (if t.hasSeeker then Scoring.SEEKER_GENESIS_BONUS else 0)
  + (if t.hasPreorder then Scoring.CHAPTER2_PREORDER_BONUS else 0)
  + (if t.hasCombo then Scoring.COMBO_BONUS else 0)
  + (if t.isBlueChip then Scoring.BLUE_CHIP_BONUS else 0)
  + (if t.isMemeLord then Scoring.MEME_LORD_BONUS else 0)
  + (if t.isDeFiKing then Scoring.DEFI_KING_BONUS else 0)
  + t.solBonusApplied
  + t.walletAgeBonus
  + min (t.txCount * Scoring.TX_COUNT_MULTIPLIER) Scoring.TX_COUNT_CAP

/-- The function `calculateScore` (`src/hooks/useWalletData.ts`, first version):
`Math.min(Math.round(score), SCORING.MAX_SCORE)`. -/
def calculateScore (t : WalletTraits) : ℤ :=
  min (jsRound (rawScore t)) Scoring.MAX_SCORE

/-- The function `determineRarityTier` (`src/hooks/useWalletData.ts`, lines 437-443). -/
def determineRarityTier (score : ℚ) : RarityTier :=
  if RarityThresholds.MYTHIC ≤ score then .mythic
  else if RarityThresholds.LEGENDARY ≤ score then .legendary
  else if RarityThresholds.EPIC ≤ score then .epic
  else if RarityThresholds.RARE ≤ score then .rare
  else .common

/-- Claim C1: for every `WalletTraits` record whose numeric fields are
non-negative, `calculateScore` returns an integer `N` with
`0 ≤ N ≤ SCORING.MAX_SCORE` (the lower bound follows from non-negativity of
every bonus term, the upper bound from the final `Math.min`). -/
theorem calculateScore_bounded (t : WalletTraits)
    (htx : 0 ≤ t.txCount) (hsol : 0 ≤ t.solBalance)
    (hbonus : 0 ≤ t.solBonusApplied) (hage : 0 ≤ t.walletAgeBonus)
    (hnft : 0 ≤ t.nftCount) (hutc : 0 ≤ t.uniqueTokenCount) :
    0 ≤ calculateScore t ∧ calculateScore t ≤ Scoring.MAX_SCORE := by
  have hraw : 0 ≤ rawScore t := by
    unfold rawScore Scoring.SEEKER_GENESIS_BONUS Scoring.CHAPTER2_PREORDER_BONUS
      Scoring.COMBO_BONUS Scoring.BLUE_CHIP_BONUS Scoring.MEME_LORD_BONUS
      Scoring.DEFI_KING_BONUS Scoring.TX_COUNT_MULTIPLIER Scoring.TX_COUNT_CAP
    have hmin : 0 ≤ min (t.txCount * (1/2 : ℚ)) 200 := by
      apply le_min (by linarith) (by norm_num)
    split_ifs <;> linarith
  constructor
  · apply le_min
    · have : (0 : ℚ) ≤ rawScore t + 1/2 := by linarith
      unfold jsRound
      exact_mod_cast Int.le_floor.mpr (by push_cast; linarith)
    · unfold Scoring.MAX_SCORE; norm_num
  · exact min_le_right _ _

/-- Witness for C1 at a concrete all-zero record. -/
theorem calculateScore_bounded_witness :
    0 ≤ calculateScore ⟨false, false, false, false, false, false, false, false,
      0, 0, 0, 0, 0, 0, 0, 0, .common⟩ ∧
    calculateScore ⟨false, false, false, false, false, false, false, false,
      0, 0, 0, 0, 0, 0, 0, 0, .common⟩ ≤ Scoring.MAX_SCORE :=
  calculateScore_bounded _ (by norm_num) (by norm_num) (by norm_num)
    (by norm_num) (by norm_num) (by norm_num)

/-- Claim C2: `determineRarityTier` is monotonically non-decreasing in the
score (in the enum's order), and against the fixed ascending thresholds
0/201/451/651/851 the five tiers partition the score range `[0, MAX_SCORE]`
with no gaps or overlaps. -/
theorem determineRarityTier_mono_partition :
    (∀ s1 s2 : ℚ, s1 ≤ s2 →
      (determineRarityTier s1).ord ≤ (determineRarityTier s2).ord) ∧
    (∀ s : ℚ, 0 ≤ s → s ≤ (Scoring.MAX_SCORE : ℚ) →
      ((determineRarityTier s = .common ↔ 0 ≤ s ∧ s < 201) ∧
       (determineRarityTier s = .rare ↔ 201 ≤ s ∧ s < 451) ∧
       (determineRarityTier s = .epic ↔ 451 ≤ s ∧ s < 651) ∧
       (determineRarityTier s = .legendary ↔ 651 ≤ s ∧ s < 851) ∧
       (determineRarityTier s = .mythic ↔ 851 ≤ s ∧ s ≤ 1200))) := by
  constructor
  · intro s1 s2 h
    unfold determineRarityTier RarityThresholds.MYTHIC RarityThresholds.LEGENDARY
      RarityThresholds.EPIC RarityThresholds.RARE
    split_ifs <;> simp [RarityTier.ord] <;> linarith
  · intro s h0 h1200
    unfold Scoring.MAX_SCORE at h1200
    push_cast at h1200
    unfold determineRarityTier RarityThresholds.MYTHIC RarityThresholds.LEGENDARY
      RarityThresholds.EPIC RarityThresholds.RARE
    split_ifs <;> refine ⟨?_, ?_, ?_, ?_, ?_⟩ <;> simp <;> try push_neg
    all_goals
      first
        | (constructor <;> linarith)
        | linarith
        | (intro h; linarith)

/-- Witness for C2 at concrete scores. -/
theorem determineRarityTier_mono_partition_witness :
    (determineRarityTier 100).ord ≤ (determineRarityTier 500).ord ∧
    (determineRarityTier 100 = .common ↔ 0 ≤ (100 : ℚ) ∧ (100 : ℚ) < 201) :=
  ⟨determineRarityTier_mono_partition.1 100 500 (by norm_num),
   (determineRarityTier_mono_partition.2 100 (by norm_num)
     (by norm_num [Scoring.MAX_SCORE])).1⟩

/-- JS `Math.round` commutes with adding an integer. -/
theorem jsRound_add_intCast (q : ℚ) (n : ℤ) : jsRound (q + n) = jsRound q + n := by
  unfold jsRound
  rw [add_right_comm, Int.floor_add_int]

/-- Counterexample to claim C3 as stated: with `solBonusApplied = 1000` both
the both-badges record and the seeker-only record hit the `MAX_SCORE` cap, so
the both-badges score is NOT at least the one-badge score plus `COMBO_BONUS`. -/
theorem calculateScore_combo_cex :
    ¬ ((calculateScore ⟨true, false, false, false, false, false, false, false,
          0, 0, 0, 0, 1000, 0, 0, 0, .common⟩ : ℚ) + Scoring.COMBO_BONUS
        ≤ (calculateScore ⟨true, true, true, false, false, false, false, false,
          0, 0, 0, 0, 1000, 0, 0, 0, .common⟩ : ℚ)) := by
  norm_num [calculateScore, rawScore, jsRound, min_def, Scoring.COMBO_BONUS,
    Scoring.SEEKER_GENESIS_BONUS, Scoring.CHAPTER2_PREORDER_BONUS,
    Scoring.BLUE_CHIP_BONUS, Scoring.MEME_LORD_BONUS, Scoring.DEFI_KING_BONUS,
    Scoring.TX_COUNT_MULTIPLIER, Scoring.TX_COUNT_CAP, Scoring.MAX_SCORE]

/-- Claim C3 (amended): provided the both-badges record's rounded pre-cap sum
does not exceed `MAX_SCORE`, the score of the both-badges record is at least
the score of the corresponding one-badge record (either badge) plus
`COMBO_BONUS`; without that proviso the final cap can absorb the bonus. -/
theorem calculateScore_combo_additive (t : WalletTraits)
    (hs : t.hasSeeker = true) (hp : t.hasPreorder = true) (hc : t.hasCombo = true)
    (hcap : jsRound (rawScore t) ≤ Scoring.MAX_SCORE) :
    ((calculateScore { t with hasPreorder := false, hasCombo := false } : ℚ)
        + Scoring.COMBO_BONUS ≤ (calculateScore t : ℚ)) ∧
    ((calculateScore { t with hasSeeker := false, hasCombo := false } : ℚ)
        + Scoring.COMBO_BONUS ≤ (calculateScore t : ℚ)) := by
  have h1 : rawScore t
      = rawScore { t with hasPreorder := false, hasCombo := false } + 350 := by
    simp only [rawScore, hs, hp, hc, if_true, Bool.false_eq_true, if_false,
      Scoring.SEEKER_GENESIS_BONUS, Scoring.CHAPTER2_PREORDER_BONUS,
      Scoring.COMBO_BONUS]
    ring
  have h2 : rawScore t
      = rawScore { t with hasSeeker := false, hasCombo := false } + 400 := by
    simp only [rawScore, hs, hp, hc, if_true, Bool.false_eq_true, if_false,
      Scoring.SEEKER_GENESIS_BONUS, Scoring.CHAPTER2_PREORDER_BONUS,
      Scoring.COMBO_BONUS]
    ring
  have e1 : jsRound (rawScore t)
      = jsRound (rawScore { t with hasPreorder := false, hasCombo := false }) + 350 := by
    rw [h1, show (350 : ℚ) = ((350 : ℤ) : ℚ) by norm_num, jsRound_add_intCast]
  have e2 : jsRound (rawScore t)
      = jsRound (rawScore { t with hasSeeker := false, hasCombo := false }) + 400 := by
    rw [h2, show (400 : ℚ) = ((400 : ℤ) : ℚ) by norm_num, jsRound_add_intCast]
  unfold calculateScore
  unfold Scoring.MAX_SCORE at hcap ⊢
  constructor
  · rw [e1] at hcap ⊢
    rw [min_eq_left hcap, min_eq_left (by omega)]
    unfold Scoring.COMBO_BONUS
    push_cast
    linarith
  · rw [e2] at hcap ⊢
    rw [min_eq_left hcap, min_eq_left (by omega)]
    unfold Scoring.COMBO_BONUS
    push_cast
    linarith

/-- Witness for C3 (amended) at a concrete uncapped record. -/
theorem calculateScore_combo_additive_witness :
    jsRound (rawScore ⟨true, true, true, false, false, false, false, false,
        0, 0, 0, 0, 0, 0, 0, 0, .common⟩) ≤ Scoring.MAX_SCORE ∧
    ((calculateScore { (⟨true, true, true, false, false, false, false, false,
          0, 0, 0, 0, 0, 0, 0, 0, .common⟩ : WalletTraits) with
          hasPreorder := false, hasCombo := false } : ℚ)
        + Scoring.COMBO_BONUS
      ≤ (calculateScore (⟨true, true, true, false, false, false, false, false,
          0, 0, 0, 0, 0, 0, 0, 0, .common⟩ : WalletTraits) : ℚ)) :=
  ⟨by norm_num [rawScore, jsRound, min_def, Scoring.SEEKER_GENESIS_BONUS,
      Scoring.CHAPTER2_PREORDER_BONUS, Scoring.COMBO_BONUS, Scoring.BLUE_CHIP_BONUS,
      Scoring.MEME_LORD_BONUS, Scoring.DEFI_KING_BONUS, Scoring.TX_COUNT_MULTIPLIER,
      Scoring.TX_COUNT_CAP, Scoring.MAX_SCORE],
   (calculateScore_combo_additive _ rfl rfl rfl
     (by norm_num [rawScore, jsRound, min_def, Scoring.SEEKER_GENESIS_BONUS,
       Scoring.CHAPTER2_PREORDER_BONUS, Scoring.COMBO_BONUS, Scoring.BLUE_CHIP_BONUS,
       Scoring.MEME_LORD_BONUS, Scoring.DEFI_KING_BONUS, Scoring.TX_COUNT_MULTIPLIER,
       Scoring.TX_COUNT_CAP, Scoring.MAX_SCORE])).1⟩

/-- The state update of `seededRandom` (identical in both generator files):
`seed = (seed * 9301 + 49297) % 233280`. -/
def nextState (s : ℚ) : ℚ := jsMod (s * 9301 + 49297) 233280

/-- The internal state of `seededRandom` after `n` updates. -/
def stateAfter (seed : ℚ) : ℕ → ℚ
  | 0 => seed
  | n + 1 => nextState (stateAfter seed n)

/-- The value returned by the `n`-th call (0-based) to the closure returned by
`seededRandom(seed)`: the state is updated first, then `seed / 233280` is
returned. -/
def callValue (seed : ℚ) (n : ℕ) : ℚ := stateAfter seed (n + 1) / 233280

/-- The explicit-state form of the `seededRandom` closure, used by the
generator embedding below. -/
structure Rng where
  state : ℚ
deriving DecidableEq

/-- One call of the closure: updated state and returned value. -/
def Rng.next (r : Rng) : ℚ × Rng :=
  (nextState r.state / 233280, ⟨nextState r.state⟩)

/-- JS `%` of a non-negative dividend by a positive divisor lands in `[0, b)`. -/
theorem jsMod_nonneg_lt (a b : ℚ) (ha : 0 ≤ a) (hb : 0 < b) :
    0 ≤ jsMod a b ∧ jsMod a b < b := by
  unfold jsMod jsTrunc
  have hq : 0 ≤ a / b := div_nonneg ha hb.le
  rw [if_pos hq]
  have h1 : ((⌊a / b⌋ : ℚ)) * b ≤ a := (le_div_iff hb).mp (Int.floor_le _)
  have h2 : a < ((⌊a / b⌋ : ℚ) + 1) * b := (div_lt_iff hb).mp (Int.lt_floor_add_one _)
  constructor <;> nlinarith

/-- A non-negative state stays in `[0, 233280)` after one update. -/
theorem nextState_nonneg_lt (s : ℚ) (h : 0 ≤ s) :
    0 ≤ nextState s ∧ nextState s < 233280 := by
  unfold nextState
  exact jsMod_nonneg_lt _ _ (by linarith) (by norm_num)

/-- One `Rng` call from a non-negative state: value in `[0, 1)`, state stays
non-negative. -/
theorem Rng.next_bounds (r : Rng) (h : 0 ≤ r.state) :
    0 ≤ r.next.1 ∧ r.next.1 < 1 ∧ 0 ≤ r.next.2.state := by
  obtain ⟨h1, h2⟩ := nextState_nonneg_lt r.state h
  unfold Rng.next
  refine ⟨by positivity, ?_, h1⟩
  rw [div_lt_one (by norm_num)]
  linarith

/-- Counterexample to claim C9 as stated: `seededRandom` does not normalize
negative seeds (there is no absolute value or pre-modulo in the code), and at
the 32-bit seed `-6` the very first call returns `-6509/233280 < 0`,
outside `[0, 1)`. -/
theorem seededRandom_negative_cex :
    ¬ (0 ≤ callValue ((-6 : ℤ) : ℚ) 0) := by
  norm_num [callValue, stateAfter, nextState, jsMod, jsTrunc]
  rw [show (⌈-(6509 / 233280 : ℚ)⌉ : ℤ) = 0 from by norm_num]
  norm_num

/-- Claim C9 (amended): for every non-negative 32-bit seed — the only seeds
the call sites produce, since the seed is an absolute value plus non-negative
counts — every call of the function returned by `seededRandom` yields a value
in `[0, 1)` (and the embedding is total, matching "never raises"). -/
theorem seededRandom_range (seed : ℤ) (h0 : 0 ≤ seed) (h32 : seed < 2 ^ 31) :
    ∀ n : ℕ, 0 ≤ callValue (seed : ℚ) n ∧ callValue (seed : ℚ) n < 1 := by
  have key : ∀ n : ℕ, 0 ≤ stateAfter (seed : ℚ) n := by
    intro n
    induction n with
    | zero =>
      show (0 : ℚ) ≤ (seed : ℚ)
      exact_mod_cast h0
    | succ n ih => exact (nextState_nonneg_lt _ ih).1
  intro n
  obtain ⟨hlo, hhi⟩ := nextState_nonneg_lt _ (key n)
  unfold callValue
  show 0 ≤ nextState (stateAfter (seed : ℚ) n) / 233280 ∧
    nextState (stateAfter (seed : ℚ) n) / 233280 < 1
  constructor
  · positivity
  · rw [div_lt_one (by norm_num)]
    linarith

/-- Witness for C9 (amended) at seed 7, first call. -/
theorem seededRandom_range_witness :
    0 ≤ callValue ((7 : ℤ) : ℚ) 0 ∧ callValue ((7 : ℤ) : ℚ) 0 < 1 :=
  seededRandom_range 7 (by norm_num) (by norm_num) 0

/-- One folding step of `hashWalletAddress`:
`hash = ((hash << 5) - hash) + char; hash = hash & hash` — the shift wraps to
int32, the sum is exact, and `hash & hash` is ToInt32. -/
def hashStep (h : ℤ) (c : ℕ) : ℤ := toInt32 (toInt32 (h * 32) - h + c)

/-- The function `hashWalletAddress` (identical in both generator files): fold `hashStep`
over the address's UTF-16 code units starting from 0, then `Math.abs`. The
address string is modelled as its list of code units. -/
def hashWalletAddress (address : List ℕ) : ℤ :=
  |List.foldl hashStep 0 address|

/-- The seed `generateSolarSystem` hands to `seededRandom`:
`(walletAddress ? hashWalletAddress(walletAddress) : 0) + traits.uniqueTokenCount + traits.nftCount`. -/
def generatorSeed (walletAddress : Option (List ℕ)) (t : WalletTraits) : ℚ :=
  (match walletAddress with
    | some a => (hashWalletAddress a : ℚ)
    | none => 0) + t.uniqueTokenCount + t.nftCount

/-- Modelled from the spec: claim C8 / spec §3 "Seed" describe the folding
step literally as `hash = hash·31 − hash + charCode`, masked to 32 bits at
each step, with the result taken as absolute value. -/
def specLiteralHash (address : List ℕ) : ℤ :=
  |List.foldl (fun h c => toInt32 (h * 31 - h + (c : ℤ))) 0 address|

/-- A folding step is ToInt32 of `hash·32 − hash + charCode`: the inner
wrap-around of the shift does not change the 32-bit result. -/
theorem hashStep_closed (h : ℤ) (c : ℕ) : hashStep h c = toInt32 (h * 32 - h + c) := by
  unfold hashStep toInt32
  omega

/-- Folding with `hashStep` is folding with the closed step
`hash·32 − hash + charCode` under a single 32-bit mask. -/
theorem foldl_hashStep_closed (address : List ℕ) :
    ∀ h : ℤ, List.foldl hashStep h address
      = List.foldl (fun h c => toInt32 (h * 32 - h + (c : ℤ))) h address := by
  induction address with
  | nil => intro h; rfl
  | cons a l ih =>
    intro h
    simp only [List.foldl_cons, hashStep_closed]
    exact ih _

/-- Counterexample to claim C8 as stated: on the address "ab"
(code units `[97, 98]`) the code's hash is `|97·31 + 98| = 3105`, while the
claimed step `hash·31 − hash + charCode` would give `|97·30 + 98| = 3008`, so
the claimed seed differs from the generator's seed. -/
theorem hashWalletAddress_spec_step_cex :
    hashWalletAddress [97, 98] = 3105 ∧ specLiteralHash [97, 98] = 3008 ∧
    ¬ (generatorSeed (some [97, 98])
          ⟨false, false, false, false, false, false, false, false,
            0, 0, 0, 0, 0, 0, 0, 0, .common⟩
        = (specLiteralHash [97, 98] : ℚ) + 0 + 0) := by
  refine ⟨?_, ?_, ?_⟩ <;>
    norm_num [hashWalletAddress, specLiteralHash, generatorSeed, hashStep, toInt32]

/-- Claim C8 (amended): the deterministic seed is derived by folding the
identity string's character codes with the step
`hash = hash·32 − hash + charCode` (the net effect of `(hash << 5) - hash`),
masked to 32 bits at each step, taking the absolute value, then adding
`uniqueTokenCount` and `nftCount`; identical identity string and identical
attribute numerics always yield the identical seed. -/
theorem generatorSeed_amended :
    (∀ address : List ℕ,
      hashWalletAddress address
        = |List.foldl (fun h c => toInt32 (h * 32 - h + (c : ℤ))) 0 address|) ∧
    (∀ (address : Option (List ℕ)) (t u : WalletTraits),
      t.uniqueTokenCount = u.uniqueTokenCount → t.nftCount = u.nftCount →
      generatorSeed address t = generatorSeed address u) := by
  constructor
  · intro address
    unfold hashWalletAddress
    rw [foldl_hashStep_closed]
  · intro address t u h1 h2
    unfold generatorSeed
    rw [h1, h2]

/-- Witness for C8 (amended) at the address "ab" and two records that agree
on the numeric attributes. -/
theorem generatorSeed_amended_witness :
    hashWalletAddress [97, 98]
      = |List.foldl (fun h c => toInt32 (h * 32 - h + (c : ℤ))) 0 [97, 98]| ∧
    generatorSeed (some [97])
        ⟨true, false, false, false, false, false, false, false,
          3, 4, 0, 0, 0, 0, 0, 0, .common⟩
      = generatorSeed (some [97])
        ⟨false, true, false, false, false, false, false, false,
          3, 4, 9, 9, 9, 9, 9, 9, .mythic⟩ :=
  ⟨generatorSeed_amended.1 [97, 98],
   generatorSeed_amended.2 _ _ _ rfl rfl⟩

namespace ScoringSupernova

/-! The `SCORING` table of the supernova constants file (the variant holding
`DIAMOND_HANDS_BONUS`/`HYPERACTIVE_BONUS`), imported by the second
`calculateScore`. The nested `SOL_BALANCE_THRESHOLDS` bonuses are flattened
into `SOL_*_BONUS`. -/

def SEEKER_GENESIS_BONUS : ℚ := 200
def CHAPTER2_PREORDER_BONUS : ℚ := 150
def COMBO_BONUS : ℚ := 200
def BLUE_CHIP_BONUS : ℚ := 50
def MEME_LORD_BONUS : ℚ := 30
def DEFI_KING_BONUS : ℚ := 30
def DIAMOND_HANDS_BONUS : ℚ := 50
def HYPERACTIVE_BONUS : ℚ := 50
def SOL_MINOR_BONUS : ℚ := 15
def SOL_MAJOR_BONUS : ℚ := 35
def SOL_LEGEND_BONUS : ℚ := 75
def WALLET_AGE_PER_YEAR : ℚ := 50
def WALLET_AGE_MAX : ℚ := 150
def TX_COUNT_MULTIPLIER : ℚ := 1/5
def TX_COUNT_CAP : ℚ := 100
def MAX_SCORE : ℤ := 1200

end ScoringSupernova

/-- The pre-cap sum of the second (supernova) `calculateScore`
(`src/hooks/useWalletData.ts`, lines 493-530). -/
def rawScoreSupernova (t : WalletTraits) : ℚ :=
  (if 5 ≤ t.solBalance then ScoringSupernova.SOL_LEGEND_BONUS
    else if 1 ≤ t.solBalance then ScoringSupernova.SOL_MAJOR_BONUS
    else if 1/10 ≤ t.solBalance then ScoringSupernova.SOL_MINOR_BONUS
    else 0)
  + (if 365 < t.walletAgeDays then ScoringSupernova.WALLET_AGE_MAX
     else if 180 < t.walletAgeDays then ScoringSupernova.WALLET_AGE_PER_YEAR * 2
     else if 90 < t.walletAgeDays then ScoringSupernova.WALLET_AGE_PER_YEAR
     else if 30 < t.walletAgeDays then ScoringSupernova.WALLET_AGE_PER_YEAR / 2
     else 0)
  + min (t.txCount * ScoringSupernova.TX_COUNT_MULTIPLIER) ScoringSupernova.TX_COUNT_CAP
  + (if 100 < t.nftCount then 100
     else if 50 < t.nftCount then 75
     else if 10 < t.nftCount then 40
     else 0)
  + (if t.hasSeeker then ScoringSupernova.SEEKER_GENESIS_BONUS else 0)
  + (if t.hasPreorder then ScoringSupernova.CHAPTER2_PREORDER_BONUS else 0)
  + (if t.hasCombo then ScoringSupernova.COMBO_BONUS else 0)
  + (if t.isBlueChip then ScoringSupernova.BLUE_CHIP_BONUS else 0)
  + (if t.isDeFiKing then ScoringSupernova.DEFI_KING_BONUS else 0)
  + (if t.diamondHands then ScoringSupernova.DIAMOND_HANDS_BONUS else 0)
  + (if t.hyperactiveDegen then ScoringSupernova.HYPERACTIVE_BONUS else 0)
  + (if t.isMemeLord then ScoringSupernova.MEME_LORD_BONUS else 0)

/-- The second (supernova) `calculateScore`:
`Math.min(Math.round(score), SCORING.MAX_SCORE)`. -/
def calculateScoreSupernova (t : WalletTraits) : ℤ :=
  min (jsRound (rawScoreSupernova t)) ScoringSupernova.MAX_SCORE

namespace Supernova

/-! Embedding of `generateSolarSystem` from the supernova generator file
(`src/unnamed/part_002`, lines 502-650). String ids `planet-${i}` /
`moon-${i}-${j}` are modelled by the numeric indices, and the moon color
`hsl(h, 20%, 60%)` by its random hue `h`; both are injective images of
what the code stores. -/

/-- An entry of the supernova `PLANET_TYPES` table; only the fields the
generator reads (`name`, `surface`) are modelled. -/
structure PlanetType where
  name : String
  surface : String
deriving DecidableEq

/-- The four-entry `PLANET_TYPES` of the supernova constants file. -/
def PLANET_TYPES : List PlanetType :=
  [⟨"terrestrial", "terrestrial"⟩, ⟨"volcanic", "volcanic"⟩,
   ⟨"gas", "gas"⟩, ⟨"ice", "ice"⟩]

/-- Out-of-range index fallback (never reached on the four-entry table). -/
def defaultPlanetType : PlanetType := ⟨"", ""⟩

/-- Constant `VISUAL_CONFIG.SUN.SEEKER_COLOR`. -/
def SEEKER_COLOR : String := "#00D4FF"

/-- Constant `VISUAL_CONFIG.SUN.PREORDER_COLOR`. -/
def PREORDER_COLOR : String := "#FFD700"

structure MoonData where
  planetIndex : ℕ
  moonIndex : ℕ
  size : ℚ
  orbitRadius : ℚ
  orbitSpeed : ℚ
  initialAngle : ℚ
  colorHue : ℚ
  inclination : ℚ
deriving DecidableEq

structure PlanetData where
  index : ℕ
  size : ℚ
  orbitRadius : ℚ
  orbitSpeed : ℚ
  rotationSpeed : ℚ
  type : PlanetType
  initialAngle : ℚ
  moons : List MoonData
  hasRing : Bool
  geometry : String
  materialSeed : ℤ
  surface : String
deriving DecidableEq

inductive StarMode where
  | single
  | binary
  | binaryPulsar
deriving DecidableEq

structure StellarProfile where
  mode : StarMode
  sunType : String
  palettePrimary : String
  paletteSecondary : String
  intensity : ℚ
  plasmaBridge : Bool
  novaBridge : Bool
deriving DecidableEq

structure SpaceDustConfig where
  particleCount : ℤ
  spreadRadius : ℚ
  colors : List String
deriving DecidableEq

structure NebulaConfig where
  colors : List String
  intensity : ℚ
  radius : ℚ
deriving DecidableEq

structure SolarSystemData where
  planets : List PlanetData
  spaceDust : SpaceDustConfig
  starfieldDensity : ℚ
  stellarProfile : StellarProfile
  orbitColor : String
  nebula : Option NebulaConfig
  rarityTier : RarityTier
deriving DecidableEq

/-- A row of `RARITY_VISUALS`; `planetRange: [a, b]` is split into
`minPlanets`/`maxPlanets`, and the optional TS fields `plasmaBridge`/`nebula`
default to false where omitted. -/
structure RarityVisualConfig where
  minPlanets : ℤ
  maxPlanets : ℤ
  starMode : StarMode
  palettePrimary : String
  paletteSecondary : String
  ensureRings : Bool
  ensureMoons : Bool
  orbitColor : String
  plasmaBridge : Bool
  nebula : Bool
deriving DecidableEq

/-- The `RARITY_VISUALS` table (identical in both generator files). -/
def RARITY_VISUALS : RarityTier → RarityVisualConfig
  | .common => ⟨1, 3, .single, "#FF6B35", "#FF9D57", false, false, "#4488ff", false, false⟩
  | .rare => ⟨4, 5, .single, "#8CFFE3", "#FFD19A", true, false, "#4488ff", false, false⟩
  | .epic => ⟨5, 6, .single, "#C3A3FF", "#FF7AE2", true, true, "#4488ff", false, false⟩
  | .legendary => ⟨6, 8, .binary, "#6AD9FF", "#8CFFE3", true, true, "#ffd479", false, false⟩
  | .mythic => ⟨8, 10, .binaryPulsar, "#FF9C6D", "#7F5BFF", true, true, "#ffd479", true, true⟩

/-- The `DUST_MULTIPLIER` table. -/
def DUST_MULTIPLIER : RarityTier → ℚ
  | .common => 1
  | .rare => 1.2
  | .epic => 1.35
  | .legendary => 1.5
  | .mythic => 1.8

/-- Star mode after the tier default and the combo override — the state of
the local `starMode` just before the score-gated promotion
(`if (starMode === 'single') starMode = 'binary'` inside the combo branch). -/
def starModeAfterCombo (t : WalletTraits) : StarMode :=
  let m := (RARITY_VISUALS t.rarityTier).starMode
  if t.hasCombo then (if m = .single then .binary else m) else m

/-- Field `sunType` after the combo/seeker/preorder chain. -/
def sunTypeAfterCombo (t : WalletTraits) : String :=
  if t.hasCombo then "combo"
  else if t.hasSeeker then "seeker"
  else if t.hasPreorder then "preorder"
  else "basic"

/-- Field `palette.primary` after the combo/seeker/preorder chain. -/
def palettePrimaryAfterCombo (t : WalletTraits) : String :=
  if t.hasCombo then SEEKER_COLOR
  else if t.hasSeeker then SEEKER_COLOR
  else if t.hasPreorder then PREORDER_COLOR
  else (RARITY_VISUALS t.rarityTier).palettePrimary

/-- Field `palette.secondary` after the combo/seeker/preorder chain. -/
def paletteSecondaryAfterCombo (t : WalletTraits) : String :=
  if t.hasCombo then PREORDER_COLOR
  else if t.hasSeeker then "#007C99"
  else if t.hasPreorder then "#FFB347"
  else (RARITY_VISUALS t.rarityTier).paletteSecondary

/-- Field `plasmaBridge` after the combo chain. -/
def plasmaAfterCombo (t : WalletTraits) : Bool :=
  if t.hasCombo then true else (RARITY_VISUALS t.rarityTier).plasmaBridge

/-- Star mode after the score-gated promotion
(`if (currentScore > 650 && starMode === 'single') starMode = 'binary'`). -/
def starModeAfterScore (t : WalletTraits) : StarMode :=
  if 650 < calculateScoreSupernova t ∧ starModeAfterCombo t = .single then .binary
  else starModeAfterCombo t

/-- Field `plasmaBridge` after the score-gated promotion. -/
def plasmaAfterScore (t : WalletTraits) : Bool :=
  if 650 < calculateScoreSupernova t ∧ starModeAfterCombo t = .single then true
  else plasmaAfterCombo t

/-- Final star mode (mythic override forces `binaryPulsar`). -/
def starModeFinal (t : WalletTraits) : StarMode :=
  if t.rarityTier = .mythic then .binaryPulsar else starModeAfterScore t

/-- Final `sunType` (mythic override). -/
def sunTypeFinal (t : WalletTraits) : String :=
  if t.rarityTier = .mythic then "mythic" else sunTypeAfterCombo t

/-- Final `palette.primary` (mythic resets it unless combo colors apply). -/
def palettePrimaryFinal (t : WalletTraits) : String :=
  if t.rarityTier = .mythic ∧ sunTypeAfterCombo t ≠ "combo" then
    (RARITY_VISUALS t.rarityTier).palettePrimary
  else palettePrimaryAfterCombo t

/-- Final `palette.secondary` (mythic resets it unless combo colors apply). -/
def paletteSecondaryFinal (t : WalletTraits) : String :=
  if t.rarityTier = .mythic ∧ sunTypeAfterCombo t ≠ "combo" then
    (RARITY_VISUALS t.rarityTier).paletteSecondary
  else paletteSecondaryAfterCombo t

/-- Final `plasmaBridge`. -/
def plasmaFinal (t : WalletTraits) : Bool :=
  if t.rarityTier = .mythic then true else plasmaAfterScore t

/-- The assembled `stellarProfile` object. -/
def stellarProfileOf (t : WalletTraits) : StellarProfile :=
  { mode := starModeFinal t,
    sunType := sunTypeFinal t,
    palettePrimary := palettePrimaryFinal t,
    paletteSecondary := paletteSecondaryFinal t,
    intensity := if t.rarityTier = .mythic then 5 else 4,
    plasmaBridge := plasmaFinal t,
    novaBridge := decide (sunTypeFinal t = "combo" ∨ t.rarityTier = .mythic) }

/-- Local `planetCount = clamp(max(rarityConfig.planetRange[0], floor(utc / 10)), rarityConfig.planetRange[0], 10)`. -/
def planetCountOf (t : WalletTraits) : ℤ :=
  clamp (max (RARITY_VISUALS t.rarityTier).minPlanets ⌊t.uniqueTokenCount / 10⌋)
    (RARITY_VISUALS t.rarityTier).minPlanets 10

/-- The moon loop for planet `i`: `n` moons remain, `j` is the current moon
index; per moon it draws size, orbit radius, orbit speed, hue and
inclination, and sets the phase to `baseAngle` for moon 0 and
`baseAngle + Math.PI` ("perfectly opposite") otherwise. -/
def moonLoop (i : ℕ) (baseAngle : ℚ) : ℕ → ℕ → Rng → List MoonData × Rng
  | 0, _, rng => ([], rng)
  | n + 1, j, rng =>
    let d1 := rng.next
    let d2 := d1.2.next
    let d3 := d2.2.next
    let d4 := d3.2.next
    let d5 := d4.2.next
    let moon : MoonData :=
      { planetIndex := i, moonIndex := j,
        size := 0.05 + d1.1 * 0.1,
        orbitRadius := 0.8 + (j : ℚ) * 0.4 + d2.1 * 0.2,
        orbitSpeed := 0.0008 * (0.8 + d3.1 * 0.4) / 2,
        initialAngle := if j = 0 then baseAngle else baseAngle + jsPI,
        colorHue := d4.1 * 360,
        inclination := (d5.1 - 0.5) * 0.4 }
    let rest := moonLoop i baseAngle n (j + 1) d5.2
    (moon :: rest.1, rest.2)

/-- Moons for planet `i`: only the first two planets get moons, when
`nftCount ≥ 50`; `moonCount = min(floor(nftCount / 50), 2)` and the base
phase is drawn once before the loop. -/
def genMoons (nftCount : ℚ) (i : ℕ) (rng : Rng) : List MoonData × Rng :=
  if i < 2 ∧ 50 ≤ nftCount then
    let moonCount := (min ⌊nftCount / 50⌋ 2).toNat
    let d := rng.next
    moonLoop i (d.1 * jsPI * 2) moonCount 0 d.2
  else ([], rng)

/-- The tail of the planet-type chain: meme → volcanic, defi → ice, else a
coin flip between gas giants and volcanic worlds. -/
def typeFallback (isMemePlanet isDeFiPlanet : Bool) (rng : Rng) : PlanetType × Rng :=
  if isMemePlanet then
    ((PLANET_TYPES.find? (fun p => p.name == "volcanic")).getD
      (PLANET_TYPES.getD 1 defaultPlanetType), rng)
  else if isDeFiPlanet then
    ((PLANET_TYPES.find? (fun p => p.name == "ice")).getD
      (PLANET_TYPES.getD 3 defaultPlanetType), rng)
  else
    let d := rng.next
    ((if (0.5 : ℚ) < d.1 then PLANET_TYPES.getD 2 defaultPlanetType
      else PLANET_TYPES.getD 1 defaultPlanetType), d.2)

/-- The `isMemePlanet` / `isDeFiPlanet` draws of one loop iteration. `&&`
short-circuits, so each draw happens only when the corresponding flag is
set. -/
def memeDefiDraws (t : WalletTraits) (rng : Rng) : Bool × Bool × Rng :=
  let m := if t.isMemeLord then
      (let d := rng.next; (decide ((0.4 : ℚ) < d.1), d.2))
    else (false, rng)
  let dd := if t.isDeFiKing then
      (let d := m.2.next; (decide ((0.4 : ℚ) < d.1), d.2))
    else (false, m.2)
  (m.1, dd.1, dd.2)

/-- The planet-type selection of one loop iteration (the `isHighActivity`
chain over the meme/defi draws). -/
def selectType (t : WalletTraits) (currentScore : ℤ) (rng : Rng) :
    PlanetType × Rng :=
  let md := memeDefiDraws t rng
  let isHighActivity := 500 < t.txCount ∨ 600 < currentScore
  if isHighActivity then
    let d := md.2.2.next
    if (0.4 : ℚ) < d.1 then
      ((PLANET_TYPES.find? (fun p => p.name == "terrestrial")).getD
        (PLANET_TYPES.getD 0 defaultPlanetType), d.2)
    else typeFallback md.1 md.2.1 d.2
  else typeFallback md.1 md.2.1 md.2.2

/-- One iteration of the planet loop. -/
def genPlanet (t : WalletTraits) (currentScore : ℤ) (minOrbitRadius : ℚ)
    (i : ℕ) (rng : Rng) : PlanetData × Rng :=
  let tp := selectType t currentScore rng
  let ptype := tp.1
  let dSize := tp.2.next
  let size := 0.3 + dSize.1 * 0.5
  let dOrbit := dSize.2.next
  let ms := genMoons t.nftCount i dOrbit.2
  let dRot := ms.2.next
  let dAngle := dRot.2.next
  let dGeom := dAngle.2.next
  let dMat := dGeom.2.next
  ({ index := i,
     size := size,
     orbitRadius := minOrbitRadius + (i : ℚ) * 2.5 + dOrbit.1 * 0.7,
     orbitSpeed := 0.0004 / (1 + (i : ℚ) * 0.25) / 2.5,
     rotationSpeed := 0.0006 * (0.5 + dRot.1),
     type := ptype,
     initialAngle := dAngle.1 * jsPI * 2,
     moons := ms.1,
     hasRing := false,
     geometry := if (0.8 : ℚ) < dGeom.1 then "oblate" else "sphere",
     materialSeed := ⌊dMat.1 * 10000⌋,
     surface := ptype.surface }, dMat.2)

/-- The planet loop, with the `largestSize` / `largestPlanetIndex` tracking
(`if (size > largestSize) { largestSize = size; largestPlanetIndex = i; }`).
Arguments: remaining iterations, current index `i`, rng, accumulated planets,
`largestSize`, `largestPlanetIndex`. -/
def planetLoop (t : WalletTraits) (currentScore : ℤ) (minOrbitRadius : ℚ) :
    ℕ → ℕ → Rng → List PlanetData → ℚ → ℕ → List PlanetData × ℕ × Rng
  | 0, _, rng, acc, _, li => (acc, li, rng)
  | n + 1, i, rng, acc, ls, li =>
    let pr := genPlanet t currentScore minOrbitRadius i rng
    if ls < pr.1.size then
      planetLoop t currentScore minOrbitRadius n (i + 1) pr.2 (acc ++ [pr.1]) pr.1.size i
    else
      planetLoop t currentScore minOrbitRadius n (i + 1) pr.2 (acc ++ [pr.1]) ls li

/-- Assignment `planets[largestPlanetIndex].hasRing = true` (no-op out of range). -/
def setRingAt : List PlanetData → ℕ → List PlanetData
  | [], _ => []
  | p :: ps, 0 => { p with hasRing := true } :: ps
  | p :: ps, n + 1 => p :: setRingAt ps n

/-- The function `generateSolarSystem` of the supernova generator file. -/
def generateSolarSystem (t : WalletTraits) (walletAddress : Option (List ℕ)) :
    SolarSystemData :=
  let rarityConfig := RARITY_VISUALS t.rarityTier
  let rng0 : Rng := ⟨generatorSeed walletAddress t⟩
  let currentScore := calculateScoreSupernova t
  let stellarProfile := stellarProfileOf t
  let nPlanets := (planetCountOf t).toNat
  let minOrbitRadius : ℚ := if stellarProfile.mode = .single then 6 else 10
  let lp := planetLoop t currentScore minOrbitRadius nPlanets 0 rng0 [] 0 0
  let planets0 := lp.1
  let largestPlanetIndex := lp.2.1
  let planets :=
    if (t.isBlueChip || rarityConfig.ensureRings) && decide (0 < planets0.length) then
      setRingAt planets0 largestPlanetIndex
    else planets0
  let dustParticleCount : ℤ :=
    min ⌊(150 + (⌊t.txCount / 100⌋ : ℚ) * 8) * DUST_MULTIPLIER t.rarityTier⌋ 3000
  let spreadRadius : ℚ :=
    50 + (nPlanets : ℚ) * 6 + (if stellarProfile.mode ≠ .single then 10 else 0)
  { planets := planets,
    spaceDust := { particleCount := dustParticleCount,
                   spreadRadius := spreadRadius,
                   colors := [palettePrimaryFinal t, paletteSecondaryFinal t, "#ffffff"] },
    starfieldDensity := 0.1 + DUST_MULTIPLIER t.rarityTier * 0.2,
    stellarProfile := stellarProfile,
    orbitColor := rarityConfig.orbitColor,
    nebula := if rarityConfig.nebula then
        some { colors := ["#2b1055", "#7a00ff", "#ff8e53"],
               intensity := 0.65, radius := spreadRadius * 1.2 }
      else none,
    rarityTier := t.rarityTier }

end Supernova

namespace MainGen

/-- The planet-count computation of the main generator
(`src/lib/solarSystemGenerator.ts`, lines 198-211): clamp of
`basePlanetEstimate || 1` to the tier's `planetRange`, a `random() > 0.6`
chance (`r` is the drawn value) of one extra planet while below the tier
max, then a final clamp to `[minPlanets, MAX_PLANETS]`. The `RARITY_VISUALS`
table is textually identical in both generator files and is shared. -/
def planetCount (tier : RarityTier) (uniqueTokenCount : ℚ) (r : ℚ) : ℤ :=
  let cfg := Supernova.RARITY_VISUALS tier
  let basePlanetEstimate := max cfg.minPlanets ⌊uniqueTokenCount / 10⌋
  let pc1 := clamp (if basePlanetEstimate = 0 then 1 else basePlanetEstimate)
    cfg.minPlanets cfg.maxPlanets
  let pc2 := if pc1 < cfg.maxPlanets ∧ (0.6 : ℚ) < r then pc1 + 1 else pc1
  clamp pc2 cfg.minPlanets 10

end MainGen

namespace Supernova

/-- The generated planet list has exactly `(planetCountOf t).toNat` entries:
the ring assignment preserves length, and the loop appends one planet per
iteration. -/
theorem planetLoop_length (t : WalletTraits) (cs : ℤ) (mo : ℚ) :
    ∀ (n i : ℕ) (rng : Rng) (acc : List PlanetData) (ls : ℚ) (li : ℕ),
    (planetLoop t cs mo n i rng acc ls li).1.length = acc.length + n := by
  intro n
  induction n with
  | zero => intros; rfl
  | succ n ih =>
    intro i rng acc ls li
    rw [planetLoop]
    split
    · rw [ih]; simp; omega
    · rw [ih]; simp; omega

/-- Applying `setRingAt` preserves the list length. -/
theorem setRingAt_length : ∀ (l : List PlanetData) (i : ℕ),
    (setRingAt l i).length = l.length := by
  intro l
  induction l with
  | nil => intro i; rfl
  | cons p ps ih =>
    intro i
    cases i with
    | zero => rfl
    | succ n => simp [setRingAt, ih]

/-- The planet list length of a generated system. -/
theorem generateSolarSystem_length (t : WalletTraits) (a : Option (List ℕ)) :
    (generateSolarSystem t a).planets.length = (planetCountOf t).toNat := by
  unfold generateSolarSystem
  simp only []
  split <;> split <;> simp [setRingAt_length, planetLoop_length]

/-- The count `planetCountOf` is clamped to `[minPlanets, 10]`. -/
theorem planetCountOf_bounds (t : WalletTraits) :
    (RARITY_VISUALS t.rarityTier).minPlanets ≤ planetCountOf t ∧
    planetCountOf t ≤ 10 := by
  unfold planetCountOf clamp
  have hm : (RARITY_VISUALS t.rarityTier).minPlanets ≤ 10 := by
    cases h : t.rarityTier <;> simp [RARITY_VISUALS]
  exact ⟨le_min (le_max_right _ _) hm, min_le_right _ _⟩

/-- Counterexample to claim C4 as stated: a common-tier record with
`uniqueTokenCount = 50` yields 5 planets, outside common's declared
`[1, 3]` range — the supernova `generateSolarSystem` clamps to the hard cap
10, not to `tier.maxPlanets`. -/
theorem planet_count_tier_range_cex :
    (RARITY_VISUALS RarityTier.common).maxPlanets = 3 ∧
    (generateSolarSystem ⟨false, false, false, false, false, false, false, false,
        50, 0, 0, 0, 0, 0, 0, 0, .common⟩ none).planets.length = 5 := by
  constructor
  · rfl
  · rw [generateSolarSystem_length]
    norm_num [planetCountOf, clamp, RARITY_VISUALS]
    rfl

/-- Claim C4 (amended): in the supernova generator the planet list length is
`clamp(max(tier.minPlanets, floor(uniqueTokenCount / 10)), tier.minPlanets, 10)`
— within `[tier.minPlanets, 10]`, but not within `[minPlanets, maxPlanets]`
for every tier; the main generator's planet count does lie within the tier's
declared `[minPlanets, maxPlanets]` range for every draw. -/
theorem planet_count_bounds_amended :
    (∀ (t : WalletTraits) (a : Option (List ℕ)),
      ((generateSolarSystem t a).planets.length : ℤ) = planetCountOf t ∧
      (RARITY_VISUALS t.rarityTier).minPlanets
        ≤ ((generateSolarSystem t a).planets.length : ℤ) ∧
      ((generateSolarSystem t a).planets.length : ℤ) ≤ 10) ∧
    (∀ (tier : RarityTier) (utc r : ℚ),
      (RARITY_VISUALS tier).minPlanets ≤ MainGen.planetCount tier utc r ∧
      MainGen.planetCount tier utc r ≤ (RARITY_VISUALS tier).maxPlanets) := by
  constructor
  · intro t a
    obtain ⟨h1, h2⟩ := planetCountOf_bounds t
    have hmin1 : 1 ≤ (RARITY_VISUALS t.rarityTier).minPlanets := by
      cases h : t.rarityTier <;> simp [RARITY_VISUALS]
    have hlen : ((generateSolarSystem t a).planets.length : ℤ) = planetCountOf t := by
      rw [generateSolarSystem_length]
      omega
    exact ⟨hlen, by omega, by omega⟩
  · intro tier utc r
    cases tier <;>
      simp only [MainGen.planetCount, clamp, RARITY_VISUALS] <;>
      split_ifs <;>
      omega

end Supernova

namespace Supernova

/-- Claim C5: if the computed score exceeds the fixed high threshold 650 and
the stellar mode after the tier default and combo override is still single,
`generateSolarSystem` promotes the stellar mode to binary — the score-level
override layered on top of the tier-level default. -/
theorem generateSolarSystem_binary_promotion (t : WalletTraits)
    (a : Option (List ℕ))
    (hscore : 650 < calculateScoreSupernova t)
    (hmode : starModeAfterCombo t = .single) :
    (generateSolarSystem t a).stellarProfile.mode = StarMode.binary := by
  have hnm : ¬ t.rarityTier = .mythic := by
    intro h
    unfold starModeAfterCombo at hmode
    rw [h] at hmode
    cases hc : t.hasCombo <;> simp [hc, RARITY_VISUALS] at hmode
  have hsp : (generateSolarSystem t a).stellarProfile.mode = starModeFinal t := rfl
  rw [hsp]
  unfold starModeFinal
  rw [if_neg hnm]
  unfold starModeAfterScore
  rw [if_pos ⟨hscore, hmode⟩]

/-- Witness for C5: an epic-tier, no-combo record scoring 835. -/
theorem generateSolarSystem_binary_promotion_witness :
    650 < calculateScoreSupernova ⟨true, false, false, true, true, true, true, true,
        0, 200, 1000, 10, 0, 0, 400, 0, .epic⟩ ∧
    starModeAfterCombo ⟨true, false, false, true, true, true, true, true,
        0, 200, 1000, 10, 0, 0, 400, 0, .epic⟩ = .single ∧
    (generateSolarSystem ⟨true, false, false, true, true, true, true, true,
        0, 200, 1000, 10, 0, 0, 400, 0, .epic⟩ none).stellarProfile.mode
      = StarMode.binary :=
  ⟨by with_unfolding_all decide, rfl,
   generateSolarSystem_binary_promotion _ none (by with_unfolding_all decide) rfl⟩

end Supernova

namespace Supernova

/-- Default for `List.getD` on moon lists. -/
def defaultMoon : MoonData := ⟨0, 0, 0, 0, 0, 0, 0, 0⟩

/-- Default for `List.getD` on planet lists. -/
def defaultPlanet : PlanetData :=
  ⟨0, 0, 0, 0, 0, defaultPlanetType, 0, [], false, "", 0, ""⟩

/-- Every planet leaves the loop body with `hasRing := false`. -/
theorem genPlanet_hasRing (t : WalletTraits) (cs : ℤ) (mo : ℚ) (i : ℕ) (rng : Rng) :
    (genPlanet t cs mo i rng).1.hasRing = false := rfl

/-- The moons of a generated planet are a `genMoons` result for the same
planet index. -/
theorem genPlanet_moons (t : WalletTraits) (cs : ℤ) (mo : ℚ) (i : ℕ) (rng : Rng) :
    ∃ r : Rng, (genPlanet t cs mo i rng).1.moons = (genMoons t.nftCount i r).1 :=
  ⟨_, rfl⟩

/-- Properties of every generated planet transfer to the loop's output. -/
theorem planetLoop_forall (t : WalletTraits) (cs : ℤ) (mo : ℚ)
    (P : PlanetData → Prop)
    (hgen : ∀ (i : ℕ) (rng : Rng), P (genPlanet t cs mo i rng).1) :
    ∀ (n i : ℕ) (rng : Rng) (acc : List PlanetData) (ls : ℚ) (li : ℕ),
    (∀ p ∈ acc, P p) →
    ∀ p ∈ (planetLoop t cs mo n i rng acc ls li).1, P p := by
  intro n
  induction n with
  | zero => intro i rng acc ls li hacc; exact hacc
  | succ n ih =>
    intro i rng acc ls li hacc
    rw [planetLoop]
    split
    all_goals
      apply ih
      intro p hp
      rcases List.mem_append.mp hp with h | h
      · exact hacc p h
      · rw [List.mem_singleton.mp h]
        exact hgen i _

/-- At most one planet carries a ring after `setRingAt` on a ring-free list. -/
theorem setRingAt_count_le (l : List PlanetData) :
    ∀ i : ℕ, (∀ p ∈ l, p.hasRing = false) →
    (setRingAt l i).countP (fun p => p.hasRing) ≤ 1 := by
  induction l with
  | nil => intro i _; simp [setRingAt]
  | cons p ps ih =>
    intro i hl
    cases i with
    | zero =>
      have hz : ps.countP (fun p => p.hasRing) = 0 :=
        List.countP_eq_zero.mpr (by
          intro q hq
          simp [hl q (List.mem_cons_of_mem p hq)])
      simp [setRingAt, List.countP_cons, hz]
    | succ n =>
      have hp : p.hasRing = false := hl p (List.mem_cons_self p ps)
      have := ih n (fun q hq => hl q (List.mem_cons_of_mem p hq))
      simp only [setRingAt, List.countP_cons, hp]
      simpa using this

/-- Applying `setRingAt` at an in-range index creates a ringed planet. -/
theorem setRingAt_exists_ring (l : List PlanetData) :
    ∀ i : ℕ, i < l.length →
    ∃ p ∈ setRingAt l i, p.hasRing = true := by
  induction l with
  | nil => intro i hi; simp at hi
  | cons p ps ih =>
    intro i hi
    cases i with
    | zero => exact ⟨{ p with hasRing := true }, List.mem_cons_self _ _, rfl⟩
    | succ n =>
      obtain ⟨q, hq, hr⟩ := ih n (by simpa using hi)
      exact ⟨q, List.mem_cons_of_mem _ hq, hr⟩

/-- Applying `setRingAt` only touches the ring flag: sizes are unchanged. -/
theorem setRingAt_sizes (l : List PlanetData) :
    ∀ i : ℕ, (setRingAt l i).map (fun p => p.size) = l.map (fun p => p.size) := by
  induction l with
  | nil => intro i; rfl
  | cons p ps ih =>
    intro i
    cases i with
    | zero => rfl
    | succ n => simp [setRingAt, ih n]

/-- Every member of `setRingAt l i` shares its size with a member of `l`. -/
theorem mem_setRingAt_size (l : List PlanetData) (i : ℕ) :
    ∀ q ∈ setRingAt l i, ∃ q' ∈ l, q.size = q'.size := by
  intro q hq
  have hmem : q.size ∈ (setRingAt l i).map (fun p => p.size) :=
    List.mem_map_of_mem _ hq
  rw [setRingAt_sizes] at hmem
  obtain ⟨q', hq', he⟩ := List.mem_map.mp hmem
  exact ⟨q', hq', he.symm⟩

/-- On a ring-free list, a ringed planet of `setRingAt l i` has the size of
`l`'s `i`-th entry. -/
theorem setRingAt_ring_size (l : List PlanetData) :
    ∀ i : ℕ, (∀ p ∈ l, p.hasRing = false) →
    ∀ p ∈ setRingAt l i, p.hasRing = true →
      p.size = (l.getD i defaultPlanet).size := by
  induction l with
  | nil => intro i _ p hp; simp [setRingAt] at hp
  | cons q qs ih =>
    intro i hl p hp hr
    cases i with
    | zero =>
      rcases List.mem_cons.mp hp with h | h
      · rw [h]; rfl
      · exact absurd hr (by simp [hl p (List.mem_cons_of_mem q h)])
    | succ n =>
      rcases List.mem_cons.mp hp with h | h
      · rw [h] at hr
        exact absurd hr (by simp [hl q (List.mem_cons_self q qs)])
      · exact ih n (fun r hrr => hl r (List.mem_cons_of_mem q hrr)) p h hr

/-- Properties of moon lists transfer through `setRingAt`. -/
theorem setRingAt_forall_moons (Q : List MoonData → Prop) :
    ∀ (l : List PlanetData) (i : ℕ), (∀ p ∈ l, Q p.moons) →
    ∀ p ∈ setRingAt l i, Q p.moons := by
  intro l
  induction l with
  | nil => intro i _ p hp; simp [setRingAt] at hp
  | cons q qs ih =>
    intro i hl p hp
    cases i with
    | zero =>
      rcases List.mem_cons.mp hp with h | h
      · rw [h]; exact hl q (List.mem_cons_self q qs)
      · exact hl p (List.mem_cons_of_mem q h)
    | succ n =>
      rcases List.mem_cons.mp hp with h | h
      · rw [h]; exact hl q (List.mem_cons_self q qs)
      · exact ih n (fun r hrr => hl r (List.mem_cons_of_mem q hrr)) p h

/-- The generator's seed is non-negative for non-negative counts. -/
theorem generatorSeed_nonneg (a : Option (List ℕ)) (t : WalletTraits)
    (h1 : 0 ≤ t.uniqueTokenCount) (h2 : 0 ≤ t.nftCount) :
    0 ≤ generatorSeed a t := by
  unfold generatorSeed
  have habs : ∀ addr : List ℕ, (0 : ℚ) ≤ (hashWalletAddress addr : ℚ) := by
    intro addr
    have : (0 : ℤ) ≤ hashWalletAddress addr := abs_nonneg _
    exact_mod_cast this
  cases a with
  | none => simp only []; linarith
  | some addr => have := habs addr; simp only []; linarith

end Supernova

namespace Supernova

/-- Applying `typeFallback` keeps the rng state non-negative. -/
theorem typeFallback_state (a b : Bool) (rng : Rng) (h : 0 ≤ rng.state) :
    0 ≤ (typeFallback a b rng).2.state := by
  unfold typeFallback
  split_ifs
  · exact h
  · exact h
  · exact (Rng.next_bounds rng h).2.2

/-- The meme/defi draws keep the rng state non-negative. -/
theorem memeDefiDraws_state (t : WalletTraits) (rng : Rng) (h : 0 ≤ rng.state) :
    0 ≤ (memeDefiDraws t rng).2.2.state := by
  unfold memeDefiDraws
  cases hm : t.isMemeLord <;> cases hd : t.isDeFiKing <;>
    simp only [hm, hd, Bool.false_eq_true, if_true, if_false, ite_true, ite_false]
  · exact h
  · exact (Rng.next_bounds _ h).2.2
  · exact (Rng.next_bounds _ h).2.2
  · exact (Rng.next_bounds _ (Rng.next_bounds _ h).2.2).2.2

/-- Applying `selectType` keeps the rng state non-negative. -/
theorem selectType_state (t : WalletTraits) (cs : ℤ) (rng : Rng)
    (h : 0 ≤ rng.state) :
    0 ≤ (selectType t cs rng).2.state := by
  have hmd := memeDefiDraws_state t rng h
  unfold selectType
  simp only []
  split_ifs
  · exact (Rng.next_bounds _ hmd).2.2
  · exact typeFallback_state _ _ _ (Rng.next_bounds _ hmd).2.2
  · exact typeFallback_state _ _ _ hmd

/-- The moon loop keeps the rng state non-negative. -/
theorem moonLoop_state (i : ℕ) (b : ℚ) :
    ∀ (n j : ℕ) (rng : Rng), 0 ≤ rng.state →
    0 ≤ (moonLoop i b n j rng).2.state := by
  intro n
  induction n with
  | zero => intro j rng h; exact h
  | succ n ih =>
    intro j rng h
    rw [moonLoop]
    have h1 := (Rng.next_bounds _ h).2.2
    have h2 := (Rng.next_bounds _ h1).2.2
    have h3 := (Rng.next_bounds _ h2).2.2
    have h4 := (Rng.next_bounds _ h3).2.2
    have h5 := (Rng.next_bounds _ h4).2.2
    exact ih _ _ h5

/-- Applying `genMoons` keeps the rng state non-negative. -/
theorem genMoons_state (nft : ℚ) (i : ℕ) (rng : Rng) (h : 0 ≤ rng.state) :
    0 ≤ (genMoons nft i rng).2.state := by
  unfold genMoons
  split_ifs
  · exact moonLoop_state _ _ _ _ _ (Rng.next_bounds _ h).2.2
  · exact h

/-- From a non-negative state, a generated planet has size at least 0.3 and
the returned rng state is again non-negative. -/
theorem genPlanet_size_state (t : WalletTraits) (cs : ℤ) (mo : ℚ) (i : ℕ)
    (rng : Rng) (h : 0 ≤ rng.state) :
    0.3 ≤ (genPlanet t cs mo i rng).1.size ∧
    0 ≤ (genPlanet t cs mo i rng).2.state := by
  have h0 := selectType_state t cs rng h
  have hval := (Rng.next_bounds _ h0).1
  have h1 := (Rng.next_bounds _ h0).2.2
  have h2 := (Rng.next_bounds _ h1).2.2
  have h3 := genMoons_state t.nftCount i _ h2
  have h4 := (Rng.next_bounds _ h3).2.2
  have h5 := (Rng.next_bounds _ h4).2.2
  have h6 := (Rng.next_bounds _ h5).2.2
  have h7 := (Rng.next_bounds _ h6).2.2
  constructor
  · show (0.3 : ℚ) ≤ 0.3 + ((selectType t cs rng).2.next).1 * 0.5
    nlinarith
  · exact h7

end Supernova

namespace Supernova

/-- The tracked `largestPlanetIndex` is in range (or still 0) at the end of
the loop. -/
theorem planetLoop_li (t : WalletTraits) (cs : ℤ) (mo : ℚ) :
    ∀ (n i : ℕ) (rng : Rng) (acc : List PlanetData) (ls : ℚ) (li : ℕ),
    i = acc.length → (li < acc.length ∨ li = 0) →
    ((planetLoop t cs mo n i rng acc ls li).2.1
        < (planetLoop t cs mo n i rng acc ls li).1.length ∨
      (planetLoop t cs mo n i rng acc ls li).2.1 = 0) := by
  intro n
  induction n with
  | zero => intro i rng acc ls li hi hli; exact hli
  | succ n ih =>
    intro i rng acc ls li hi hli
    rw [planetLoop]
    split
    · apply ih
      · simp [hi]
      · left; simp [hi]
    · apply ih
      · simp [hi]
      · rcases hli with h | h
        · left; simp; omega
        · right; exact h

/-- From a non-negative rng state, the loop's tracked index points at a
largest planet. -/
theorem planetLoop_largest (t : WalletTraits) (cs : ℤ) (mo : ℚ) :
    ∀ (n i : ℕ) (rng : Rng) (acc : List PlanetData) (ls : ℚ) (li : ℕ),
    0 ≤ rng.state → i = acc.length →
    ((acc = [] ∧ ls = 0) ∨
      (li < acc.length ∧ (acc.getD li defaultPlanet).size = ls ∧
        ∀ p ∈ acc, p.size ≤ ls)) →
    ((planetLoop t cs mo n i rng acc ls li).1 = [] ∨
      (∀ p ∈ (planetLoop t cs mo n i rng acc ls li).1,
        p.size ≤ ((planetLoop t cs mo n i rng acc ls li).1.getD
          (planetLoop t cs mo n i rng acc ls li).2.1 defaultPlanet).size)) := by
  intro n
  induction n with
  | zero =>
    intro i rng acc ls li hrng hi hinv
    rcases hinv with ⟨hnil, -⟩ | ⟨h1, h2, h3⟩
    · left; exact hnil
    · right
      intro p hp
      show p.size ≤ (acc.getD li defaultPlanet).size
      rw [h2]
      exact h3 p hp
  | succ n ih =>
    intro i rng acc ls li hrng hi hinv
    obtain ⟨hsz, hst⟩ := genPlanet_size_state t cs mo i rng hrng
    rw [planetLoop]
    split
    · rename_i hlt
      apply ih
      · exact hst
      · simp [hi]
      · right
        refine ⟨?_, ?_, ?_⟩
        · simp only [List.length_append, List.length_singleton, hi]
          omega
        · rw [hi, List.getD_append_right _ _ _ _ (le_refl _)]
          simp
        · intro p hp
          rcases List.mem_append.mp hp with hmem | hmem
          · rcases hinv with ⟨hnil, hls0⟩ | ⟨-, -, h3⟩
            · rw [hnil] at hmem; simp at hmem
            · exact ((h3 p hmem).trans_lt hlt).le
          · exact le_of_eq (by rw [List.mem_singleton.mp hmem])
    · rename_i hge
      push_neg at hge
      apply ih
      · exact hst
      · simp [hi]
      · rcases hinv with ⟨hnil, hls0⟩ | ⟨h1, h2, h3⟩
        · exfalso
          rw [hls0] at hge
          have hc : (0.3 : ℚ) ≤ 0 := le_trans hsz hge
          norm_num at hc
        · right
          refine ⟨?_, ?_, ?_⟩
          · simp only [List.length_append, List.length_singleton]
            omega
          · rw [List.getD_append _ _ _ _ h1]
            exact h2
          · intro p hp
            rcases List.mem_append.mp hp with hmem | hmem
            · exact h3 p hmem
            · rw [List.mem_singleton.mp hmem]
              exact hge

end Supernova

namespace Supernova

/-- Claim C6: in every generated system the planet list is non-empty, at most
one planet has its ring flag set, a ring appears exactly when the blue-chip
flag is set or the tier guarantees rings, and — under the documented
non-negativity precondition on the attribute counts — the ringed planet is a
largest planet. -/
theorem generateSolarSystem_ring_spec (t : WalletTraits) (a : Option (List ℕ)) :
    ((generateSolarSystem t a).planets ≠ [] ∧
     (generateSolarSystem t a).planets.countP (fun p => p.hasRing) ≤ 1 ∧
     ((∃ p ∈ (generateSolarSystem t a).planets, p.hasRing = true) ↔
       (t.isBlueChip = true ∨ (RARITY_VISUALS t.rarityTier).ensureRings = true))) ∧
    (0 ≤ t.uniqueTokenCount → 0 ≤ t.nftCount →
      ∀ p ∈ (generateSolarSystem t a).planets, p.hasRing = true →
        ∀ q ∈ (generateSolarSystem t a).planets, q.size ≤ p.size) := by
  have hplanets : (generateSolarSystem t a).planets
      = (if (t.isBlueChip || (RARITY_VISUALS t.rarityTier).ensureRings)
            && decide (0 < (planetLoop t (calculateScoreSupernova t)
              (if (stellarProfileOf t).mode = .single then (6 : ℚ) else 10)
              (planetCountOf t).toNat 0 ⟨generatorSeed a t⟩ [] 0 0).1.length)
         then setRingAt
            (planetLoop t (calculateScoreSupernova t)
              (if (stellarProfileOf t).mode = .single then (6 : ℚ) else 10)
              (planetCountOf t).toNat 0 ⟨generatorSeed a t⟩ [] 0 0).1
            (planetLoop t (calculateScoreSupernova t)
              (if (stellarProfileOf t).mode = .single then (6 : ℚ) else 10)
              (planetCountOf t).toNat 0 ⟨generatorSeed a t⟩ [] 0 0).2.1
         else (planetLoop t (calculateScoreSupernova t)
              (if (stellarProfileOf t).mode = .single then (6 : ℚ) else 10)
              (planetCountOf t).toNat 0 ⟨generatorSeed a t⟩ [] 0 0).1) := by
    show (generateSolarSystem t a).planets = _
    rfl
  generalize hcs : calculateScoreSupernova t = cs at hplanets
  generalize hmo : (if (stellarProfileOf t).mode = .single then (6 : ℚ) else 10) = mo at hplanets
  generalize hLp : (planetLoop t cs mo (planetCountOf t).toNat 0 ⟨generatorSeed a t⟩ [] 0 0) = lp at hplanets
  obtain ⟨L, li, rfin⟩ := lp
  rw [show ((L, li, rfin) : List PlanetData × ℕ × Rng).1 = L from rfl,
    show ((L, li, rfin) : List PlanetData × ℕ × Rng).2.1 = li from rfl] at hplanets
  have hlen : L.length = (planetCountOf t).toNat := by
    have := planetLoop_length t cs mo (planetCountOf t).toNat 0 ⟨generatorSeed a t⟩ [] 0 0
    rw [hLp] at this
    simpa using this
  have hmin1 : 1 ≤ (RARITY_VISUALS t.rarityTier).minPlanets := by
    cases h : t.rarityTier <;> simp [RARITY_VISUALS]
  have hcount1 := (planetCountOf_bounds t).1
  have hpos : 0 < L.length := by
    rw [hlen]; omega
  have hfree : ∀ p ∈ L, p.hasRing = false := by
    have := planetLoop_forall t cs mo (fun p => p.hasRing = false)
      (fun i rng => genPlanet_hasRing t cs mo i rng)
      (planetCountOf t).toNat 0 ⟨generatorSeed a t⟩ [] 0 0 (by simp)
    rw [hLp] at this
    exact this
  have hlilt : li < L.length := by
    have h0 := planetLoop_li t cs mo (planetCountOf t).toNat 0 ⟨generatorSeed a t⟩ [] 0 0
      (by simp) (Or.inr rfl)
    rw [hLp] at h0
    have h1 : li < L.length ∨ li = 0 := by simpa using h0
    rcases h1 with h | h
    · exact h
    · rw [h]; exact hpos
  have hdec : decide (0 < L.length) = true := by simpa using hpos
  rw [hdec, Bool.and_true] at hplanets
  constructor
  · by_cases hcond : (t.isBlueChip || (RARITY_VISUALS t.rarityTier).ensureRings) = true
    · rw [hcond, if_pos rfl] at hplanets
      refine ⟨?_, ?_, ?_⟩
      · rw [hplanets]
        intro hnil
        have hle := congrArg List.length hnil
        rw [setRingAt_length, List.length_nil] at hle
        omega
      · rw [hplanets]
        exact setRingAt_count_le L li hfree
      · rw [hplanets]
        constructor
        · intro _
          simpa using hcond
        · intro _
          exact setRingAt_exists_ring L li hlilt
    · have hcond' : (t.isBlueChip || (RARITY_VISUALS t.rarityTier).ensureRings) = false :=
        Bool.not_eq_true _ |>.mp hcond
      rw [hcond', if_neg (by simp)] at hplanets
      refine ⟨?_, ?_, ?_⟩
      · rw [hplanets]
        intro hnil
        rw [hnil] at hpos
        simp at hpos
      · rw [hplanets]
        have : L.countP (fun p => p.hasRing) = 0 :=
          List.countP_eq_zero.mpr (by intro q hq; simp [hfree q hq])
        omega
      · rw [hplanets]
        constructor
        · rintro ⟨p, hp, hr⟩
          rw [hfree p hp] at hr
          simp at hr
        · intro hor
          exfalso
          rcases hor with h | h <;> simp [h] at hcond'
  · intro hutc hnft
    have hseed : 0 ≤ generatorSeed a t := generatorSeed_nonneg a t hutc hnft
    have hlg := planetLoop_largest t cs mo (planetCountOf t).toNat 0
      ⟨generatorSeed a t⟩ [] 0 0 hseed (by simp) (Or.inl ⟨rfl, rfl⟩)
    rw [hLp] at hlg
    have hlg2 : L = [] ∨ ∀ p ∈ L, p.size ≤ (L.getD li defaultPlanet).size := by
      simpa using hlg
    have hmax : ∀ p ∈ L, p.size ≤ (L.getD li defaultPlanet).size := by
      rcases hlg2 with h | h
      · exfalso; rw [h] at hpos; simp at hpos
      · exact h
    intro p hp hr q hq
    by_cases hcond : (t.isBlueChip || (RARITY_VISUALS t.rarityTier).ensureRings) = true
    · rw [hcond, if_pos rfl] at hplanets
      rw [hplanets] at hp hq
      have hpsize : p.size = (L.getD li defaultPlanet).size :=
        setRingAt_ring_size L li hfree p hp hr
      obtain ⟨q', hq', hqe⟩ := mem_setRingAt_size L li q hq
      rw [hqe, hpsize]
      exact hmax q' hq'
    · have hcond' : (t.isBlueChip || (RARITY_VISUALS t.rarityTier).ensureRings) = false :=
        Bool.not_eq_true _ |>.mp hcond
      rw [hcond', if_neg (by simp)] at hplanets
      rw [hplanets] at hp
      rw [hfree p hp] at hr
      simp at hr

/-- Witness for C6 at the all-zero common record. -/
theorem generateSolarSystem_ring_spec_witness :
    (generateSolarSystem ⟨false, false, false, false, false, false, false, false,
        0, 0, 0, 0, 0, 0, 0, 0, .common⟩ none).planets ≠ [] ∧
    (∀ p ∈ (generateSolarSystem ⟨false, false, false, false, false, false, false,
        false, 0, 0, 0, 0, 0, 0, 0, 0, .common⟩ none).planets, p.hasRing = true →
      ∀ q ∈ (generateSolarSystem ⟨false, false, false, false, false, false, false,
        false, 0, 0, 0, 0, 0, 0, 0, 0, .common⟩ none).planets, q.size ≤ p.size) :=
  ⟨(generateSolarSystem_ring_spec _ none).1.1,
   (generateSolarSystem_ring_spec _ none).2 (by norm_num) (by norm_num)⟩

end Supernova

namespace Supernova

/-- The moon loop emits exactly `n` moons. -/
theorem moonLoop_length (i : ℕ) (b : ℚ) :
    ∀ (n j : ℕ) (rng : Rng), (moonLoop i b n j rng).1.length = n := by
  intro n
  induction n with
  | zero => intros; rfl
  | succ n ih =>
    intro j rng
    rw [moonLoop]
    simp [ih]

/-- In a two-moon loop starting at moon index 0, the second phase is the
first phase plus π. -/
theorem moonLoop_two (i : ℕ) (b : ℚ) (rng : Rng) :
    ((moonLoop i b 2 0 rng).1.getD 1 defaultMoon).initialAngle
      = ((moonLoop i b 2 0 rng).1.getD 0 defaultMoon).initialAngle + jsPI := rfl

/-- A two-element `genMoons` result has diametrically opposite phases. -/
theorem genMoons_two_moons (nft : ℚ) (i : ℕ) (rng : Rng)
    (h : (genMoons nft i rng).1.length = 2) :
    ((genMoons nft i rng).1.getD 1 defaultMoon).initialAngle
      = ((genMoons nft i rng).1.getD 0 defaultMoon).initialAngle + jsPI := by
  unfold genMoons at h ⊢
  split_ifs at h ⊢ with hc
  · simp only [] at h ⊢
    rw [moonLoop_length] at h
    rw [h]
    exact moonLoop_two _ _ _
  · simp at h

/-- Two-moon symmetry for a single generated planet. -/
theorem genPlanet_moon_symmetry (t : WalletTraits) (cs : ℤ) (mo : ℚ)
    (i : ℕ) (rng : Rng)
    (h : (genPlanet t cs mo i rng).1.moons.length = 2) :
    ((genPlanet t cs mo i rng).1.moons.getD 1 defaultMoon).initialAngle
      = ((genPlanet t cs mo i rng).1.moons.getD 0 defaultMoon).initialAngle
        + jsPI := by
  obtain ⟨r, hr⟩ := genPlanet_moons t cs mo i rng
  rw [hr] at h ⊢
  exact genMoons_two_moons t.nftCount i r h

/-- Claim C7: whenever a planet of a generated system carries exactly two
moons, the second moon's initial phase angle equals the first moon's phase
plus π exactly, rather than being drawn independently. -/
theorem generateSolarSystem_moon_symmetry (t : WalletTraits)
    (a : Option (List ℕ)) :
    ∀ p ∈ (generateSolarSystem t a).planets, p.moons.length = 2 →
      (p.moons.getD 1 defaultMoon).initialAngle
        = (p.moons.getD 0 defaultMoon).initialAngle + jsPI := by
  have hplanets : (generateSolarSystem t a).planets
      = (if (t.isBlueChip || (RARITY_VISUALS t.rarityTier).ensureRings)
            && decide (0 < (planetLoop t (calculateScoreSupernova t)
              (if (stellarProfileOf t).mode = .single then (6 : ℚ) else 10)
              (planetCountOf t).toNat 0 ⟨generatorSeed a t⟩ [] 0 0).1.length)
         then setRingAt
            (planetLoop t (calculateScoreSupernova t)
              (if (stellarProfileOf t).mode = .single then (6 : ℚ) else 10)
              (planetCountOf t).toNat 0 ⟨generatorSeed a t⟩ [] 0 0).1
            (planetLoop t (calculateScoreSupernova t)
              (if (stellarProfileOf t).mode = .single then (6 : ℚ) else 10)
              (planetCountOf t).toNat 0 ⟨generatorSeed a t⟩ [] 0 0).2.1
         else (planetLoop t (calculateScoreSupernova t)
              (if (stellarProfileOf t).mode = .single then (6 : ℚ) else 10)
              (planetCountOf t).toNat 0 ⟨generatorSeed a t⟩ [] 0 0).1) := rfl
  have hloop : ∀ p ∈ (planetLoop t (calculateScoreSupernova t)
      (if (stellarProfileOf t).mode = .single then (6 : ℚ) else 10)
      (planetCountOf t).toNat 0 ⟨generatorSeed a t⟩ [] 0 0).1,
      p.moons.length = 2 →
        (p.moons.getD 1 defaultMoon).initialAngle
          = (p.moons.getD 0 defaultMoon).initialAngle + jsPI :=
    planetLoop_forall t _ _
      (fun p => p.moons.length = 2 →
        (p.moons.getD 1 defaultMoon).initialAngle
          = (p.moons.getD 0 defaultMoon).initialAngle + jsPI)
      (fun i rng => genPlanet_moon_symmetry t _ _ i rng)
      (planetCountOf t).toNat 0 ⟨generatorSeed a t⟩ [] 0 0 (by simp)
  rw [hplanets]
  revert hloop
  generalize (if (stellarProfileOf t).mode = .single then (6 : ℚ) else 10) = mo
  intro hloop
  split
  · exact setRingAt_forall_moons
      (fun ms => ms.length = 2 →
        (ms.getD 1 defaultMoon).initialAngle
          = (ms.getD 0 defaultMoon).initialAngle + jsPI)
      _ _ hloop
  · exact hloop

end Supernova

namespace Supernova

/-- Reading `getD` at an in-range index gives a member of the list. -/
theorem getD_mem_of_lt {α : Type} (l : List α) (n : ℕ) (d : α) (h : n < l.length) :
    l.getD n d ∈ l := by
  induction l generalizing n with
  | nil => simp at h
  | cons a as ih =>
    cases n with
    | zero => exact List.mem_cons_self a as
    | succ m => exact List.mem_cons_of_mem a (ih m (by simpa using h))

/-- Witness for C7: a common-tier record with 100 NFTs gives its first planet
exactly two moons, and the phases are opposite. -/
theorem generateSolarSystem_moon_symmetry_witness :
    ((generateSolarSystem ⟨false, false, false, false, false, false, false, false,
        0, 100, 0, 0, 0, 0, 0, 0, .common⟩ none).planets.getD 0 defaultPlanet)
      ∈ (generateSolarSystem ⟨false, false, false, false, false, false, false, false,
        0, 100, 0, 0, 0, 0, 0, 0, .common⟩ none).planets ∧
    ((generateSolarSystem ⟨false, false, false, false, false, false, false, false,
        0, 100, 0, 0, 0, 0, 0, 0, .common⟩ none).planets.getD 0 defaultPlanet).moons.length
      = 2 ∧
    (((generateSolarSystem ⟨false, false, false, false, false, false, false, false,
        0, 100, 0, 0, 0, 0, 0, 0, .common⟩ none).planets.getD 0 defaultPlanet).moons.getD
          1 defaultMoon).initialAngle
      = (((generateSolarSystem ⟨false, false, false, false, false, false, false, false,
        0, 100, 0, 0, 0, 0, 0, 0, .common⟩ none).planets.getD 0 defaultPlanet).moons.getD
          0 defaultMoon).initialAngle + jsPI :=
  ⟨getD_mem_of_lt _ 0 _ (by
      rw [generateSolarSystem_length]
      norm_num [planetCountOf, clamp, RARITY_VISUALS]),
   by with_unfolding_all decide,
   generateSolarSystem_moon_symmetry
     ⟨false, false, false, false, false, false, false, false,
       0, 100, 0, 0, 0, 0, 0, 0, .common⟩ none _
     (getD_mem_of_lt _ 0 _ (by
       rw [generateSolarSystem_length]
       norm_num [planetCountOf, clamp, RARITY_VISUALS]))
     (by with_unfolding_all decide)⟩

end Supernova

/-- The function `simplexNoise` from the texture synthesizer (supernova generator file,
lines 161-166): integer hashing of the lattice cell plus the seed, masked to
31 bits and mapped to `[-1, 1]`. The JS float rounding of the intermediate
product above 2^53 is not modelled; the properties proved here (octave
structure and the range bound) depend only on the final 31-bit mask. -/
def simplexNoise (x y : ℚ) (seed : ℤ) : ℚ :=
  let X := jsAnd32 ⌊x⌋ 255
  let Y := jsAnd32 ⌊y⌋ 255
  let hash := jsAnd32
    (jsXor32 (X * 374761393 + Y * 668265263 + seed) (jsShr32 seed 13)) 0xFFFFFFFF
  let m := jsAnd32 (hash * (hash * hash * 15731 + 789221) + 1376312589) 0x7FFFFFFF
  (m : ℚ) / 0x7FFFFFFF * 2 - 1

/-- The `fbm` accumulation loop (lines 168-179): arguments are remaining
octaves, current octave index `i`, then `value`, `amplitude`, `frequency`,
`maxValue`; returns the final `(value, maxValue)`. -/
def fbmLoop (x y : ℚ) (seed : ℤ) : ℕ → ℕ → ℚ → ℚ → ℚ → ℚ → ℚ × ℚ
  | 0, _, value, _, _, maxValue => (value, maxValue)
  | n + 1, i, value, amplitude, frequency, maxValue =>
    fbmLoop x y seed n (i + 1)
      (value + simplexNoise (x * frequency) (y * frequency) (seed + i) * amplitude)
      (amplitude * 0.5) (frequency * 2) (maxValue + amplitude)

/-- The function `fbm`: run the loop from `value = 0`, `amplitude = 1`, `frequency = 1`,
`maxValue = 0`, then `return value / maxValue`. -/
def fbm (x y : ℚ) (seed : ℤ) (octaves : ℕ) : ℚ :=
  let r := fbmLoop x y seed octaves 0 0 1 1 0
  r.1 / r.2

/-- A 31-bit mask is non-negative and at most `0x7FFFFFFF`. -/
theorem jsAnd32_mask_bounds (a : ℤ) :
    0 ≤ jsAnd32 a 0x7FFFFFFF ∧ jsAnd32 a 0x7FFFFFFF ≤ 0x7FFFFFFF := by
  unfold jsAnd32
  have he : (((0x7FFFFFFF : ℤ)) % 2 ^ 32).toNat = 0x7FFFFFFF := by decide
  rw [he]
  have hland : Nat.land ((a % 2 ^ 32).toNat) 0x7FFFFFFF ≤ 0x7FFFFFFF :=
    Nat.and_le_right
  unfold toInt32
  omega

/-- Mapping a 31-bit value through `/ 0x7FFFFFFF * 2 - 1` lands in `[-1, 1]`. -/
theorem maskToUnit_bounds (m : ℤ) (h0 : 0 ≤ m) (h1 : m ≤ 0x7FFFFFFF) :
    -1 ≤ (m : ℚ) / 0x7FFFFFFF * 2 - 1 ∧ (m : ℚ) / 0x7FFFFFFF * 2 - 1 ≤ 1 := by
  have hm0 : (0 : ℚ) ≤ (m : ℚ) := by exact_mod_cast h0
  have hm1 : (m : ℚ) ≤ 0x7FFFFFFF := by exact_mod_cast h1
  have hq0 : (0 : ℚ) ≤ (m : ℚ) / 0x7FFFFFFF := by positivity
  have hq1 : (m : ℚ) / 0x7FFFFFFF ≤ 1 := by
    rw [div_le_one (by norm_num)]
    exact hm1
  constructor <;> linarith

/-- The base noise always lies in `[-1, 1]`. -/
theorem simplexNoise_bounds (x y : ℚ) (seed : ℤ) :
    -1 ≤ simplexNoise x y seed ∧ simplexNoise x y seed ≤ 1 :=
  maskToUnit_bounds _ (jsAnd32_mask_bounds _).1 (jsAnd32_mask_bounds _).2

/-- Closed form of the `fbm` loop: starting at octave index `i` with the
given accumulators, octave `j` of the remaining `n` samples the base noise at
frequency `frequency · 2^j` and amplitude `amplitude · (1/2)^j`, and
`maxValue` collects the amplitudes. -/
theorem fbmLoop_closed (x y : ℚ) (seed : ℤ) :
    ∀ (n i : ℕ) (value amplitude frequency maxValue : ℚ),
    fbmLoop x y seed n i value amplitude frequency maxValue
      = (value + amplitude * ∑ j in Finset.range n,
            simplexNoise (x * (frequency * 2 ^ j)) (y * (frequency * 2 ^ j))
              (seed + (i + j : ℕ)) * (1 / 2) ^ j,
         maxValue + amplitude * ∑ j in Finset.range n, ((1 : ℚ) / 2) ^ j) := by
  intro n
  induction n with
  | zero =>
    intro i v a f mv
    simp [fbmLoop]
  | succ n ih =>
    intro i v a f mv
    rw [fbmLoop, ih]
    rw [show (0.5 : ℚ) = 1 / 2 from by norm_num]
    rw [Finset.sum_range_succ'
        (fun j => simplexNoise (x * (f * 2 ^ j)) (y * (f * 2 ^ j))
          (seed + (i + j : ℕ)) * (1 / 2) ^ j) n,
      Finset.sum_range_succ' (fun j => ((1 : ℚ) / 2) ^ j) n]
    have hs1 : (∑ j in Finset.range n,
          simplexNoise (x * (f * 2 * 2 ^ j)) (y * (f * 2 * 2 ^ j))
            (seed + (i + 1 + j : ℕ)) * (1 / 2) ^ j)
        = ∑ j in Finset.range n,
          simplexNoise (x * (f * 2 ^ (j + 1))) (y * (f * 2 ^ (j + 1)))
            (seed + (i + (j + 1) : ℕ)) * (1 / 2) ^ j := by
      apply Finset.sum_congr rfl
      intro j hj
      have e1 : x * (f * 2 * 2 ^ j) = x * (f * 2 ^ (j + 1)) := by ring
      have e2 : y * (f * 2 * 2 ^ j) = y * (f * 2 ^ (j + 1)) := by ring
      have e3 : (i + 1 + j : ℕ) = (i + (j + 1) : ℕ) := by omega
      rw [e1, e2, e3]
    have hs2 : (∑ j in Finset.range n,
          simplexNoise (x * (f * 2 ^ (j + 1))) (y * (f * 2 ^ (j + 1)))
            (seed + (i + (j + 1) : ℕ)) * (1 / 2) ^ (j + 1))
        = (∑ j in Finset.range n,
          simplexNoise (x * (f * 2 ^ (j + 1))) (y * (f * 2 ^ (j + 1)))
            (seed + (i + (j + 1) : ℕ)) * (1 / 2) ^ j) * (1 / 2) := by
      rw [Finset.sum_mul]
      apply Finset.sum_congr rfl
      intro j hj
      ring
    have hs3 : (∑ j in Finset.range n, ((1 : ℚ) / 2) ^ (j + 1))
        = (∑ j in Finset.range n, ((1 : ℚ) / 2) ^ j) * (1 / 2) := by
      rw [Finset.sum_mul]
      apply Finset.sum_congr rfl
      intro j hj
      ring
    simp only [hs1, hs2, hs3, pow_zero, mul_one, Nat.add_zero, Prod.mk.injEq]
    constructor <;> ring

/-- Claim C10: `fbm` evaluates exactly `octaves` samples of the base noise —
octave `j` at frequency `2^j`, amplitude `(1/2)^j` and octave seed
`seed + j` — and divides the weighted sum by the total amplitude, so that for
at least one octave the resulting scalar field always lies in `[-1, 1]`. -/
theorem fbm_octaves_bounds (x y : ℚ) (seed : ℤ) (octaves : ℕ) :
    fbm x y seed octaves
      = (∑ j in Finset.range octaves,
          simplexNoise (x * 2 ^ j) (y * 2 ^ j) (seed + j) * (1 / 2) ^ j)
        / (∑ j in Finset.range octaves, ((1 : ℚ) / 2) ^ j) ∧
    (1 ≤ octaves → -1 ≤ fbm x y seed octaves ∧ fbm x y seed octaves ≤ 1) := by
  have hclosed : fbm x y seed octaves
      = (∑ j in Finset.range octaves,
          simplexNoise (x * 2 ^ j) (y * 2 ^ j) (seed + j) * (1 / 2) ^ j)
        / (∑ j in Finset.range octaves, ((1 : ℚ) / 2) ^ j) := by
    unfold fbm
    rw [fbmLoop_closed]
    simp [one_mul, zero_add]
  refine ⟨hclosed, ?_⟩
  intro hoct
  have hD1 : (1 : ℚ) ≤ ∑ j in Finset.range octaves, ((1 : ℚ) / 2) ^ j := by
    have h0mem : 0 ∈ Finset.range octaves := Finset.mem_range.mpr (by omega)
    have hle : ((1 : ℚ) / 2) ^ (0 : ℕ)
        ≤ ∑ j in Finset.range octaves, ((1 : ℚ) / 2) ^ j :=
      Finset.single_le_sum (fun j _ => by positivity) h0mem
    simpa using hle
  have hD0 : (0 : ℚ) < ∑ j in Finset.range octaves, ((1 : ℚ) / 2) ^ j := by
    linarith
  have habs : |∑ j in Finset.range octaves,
      simplexNoise (x * 2 ^ j) (y * 2 ^ j) (seed + j) * (1 / 2) ^ j|
      ≤ ∑ j in Finset.range octaves, ((1 : ℚ) / 2) ^ j := by
    calc |∑ j in Finset.range octaves,
        simplexNoise (x * 2 ^ j) (y * 2 ^ j) (seed + j) * (1 / 2) ^ j|
        ≤ ∑ j in Finset.range octaves,
          |simplexNoise (x * 2 ^ j) (y * 2 ^ j) (seed + j) * (1 / 2) ^ j| :=
          Finset.abs_sum_le_sum_abs _ _
      _ ≤ ∑ j in Finset.range octaves, ((1 : ℚ) / 2) ^ j := by
          apply Finset.sum_le_sum
          intro j hj
          rw [abs_mul]
          have hs := simplexNoise_bounds (x * 2 ^ j) (y * 2 ^ j) (seed + j)
          have hsa : |simplexNoise (x * 2 ^ j) (y * 2 ^ j) (seed + j)| ≤ 1 :=
            abs_le.mpr ⟨hs.1, hs.2⟩
          have hp : |((1 : ℚ) / 2) ^ j| = ((1 : ℚ) / 2) ^ j := by
            rw [abs_of_nonneg]
            positivity
          rw [hp]
          nlinarith [pow_nonneg (show (0 : ℚ) ≤ 1 / 2 by norm_num) j]
  obtain ⟨hN1, hN2⟩ := abs_le.mp habs
  rw [hclosed]
  constructor
  · rw [le_div_iff hD0]
    linarith
  · rw [div_le_one hD0]
    exact hN2

/-- Witness for C10 at two octaves. -/
theorem fbm_octaves_bounds_witness :
    (1 : ℕ) ≤ 2 ∧ -1 ≤ fbm 0 0 0 2 ∧ fbm 0 0 0 2 ≤ 1 :=
  ⟨by norm_num, ((fbm_octaves_bounds 0 0 0 2).2 (by norm_num)).1,
   ((fbm_octaves_bounds 0 0 0 2).2 (by norm_num)).2⟩
